import Mathlib

/-!
Shallow embedding of the BLS-Data-Analysis-Dashboard data pipeline.

The embedded code is `src/data_fetcher.py` (class `BLSDataFetcher`:
`fetch_data`, `_process_data`) and `src/utils.py` (`calculate_changes`,
`get_latest_metrics`).  Pandas tables are embedded as Lean lists of rows;
Python `float` values are modelled as `ℚ` (the claims under study are about
lag alignment and definedness, not floating-point rounding); Python string
comparison is embedded as code-point lexicographic comparison on `List Char`;
Python exceptions are modelled by `Option`: `none` means the corresponding
Python code raised.
-/

namespace BLS

/-- Python strict string comparison `a < b` (code-point lexicographic,
a proper prefix is smaller). -/
def lexLt : List Char → List Char → Bool
  | [], [] => false
  | [], _ :: _ => true
  | _ :: _, [] => false
  | a :: as, b :: bs => if a < b then true else if b < a then false else lexLt as bs

/-- Python `a <= b` on strings: the order is total, so `a <= b` iff `¬ b < a`. -/
def lexLe (a b : List Char) : Bool := !(lexLt b a)

/-- Numeric value of a digit list (most significant first). -/
def charsVal (l : List Char) : Nat := l.foldl (fun n c => 10 * n + (c.toNat - 48)) 0

/-- Model of Python `int(s)` on the strings this pipeline feeds it: succeeds
exactly on nonempty all-digit strings.  (CPython also accepts surrounding
whitespace, a sign and inner underscores; the period/year strings this code
parses are plain digit strings, on which the two agree.) -/
def parseNatChars (l : List Char) : Option Nat :=
  if !l.isEmpty && l.all Char.isDigit then some (charsVal l) else none

/-- Unsigned part of Python `float(s)` on plain decimal strings:
digits with at most one dot, at least one digit overall
(so "1", "1.", ".5" parse and "", ".", "N/A" do not). -/
def parseUnsignedChars (l : List Char) : Option ℚ :=
  match l.span (fun c => c ≠ '.') with
  | (a, []) =>
    if !a.isEmpty && a.all Char.isDigit then some (charsVal a) else none
  | (a, _ :: b) =>
    if (!a.isEmpty || !b.isEmpty) && a.all Char.isDigit && b.all Char.isDigit
        && !b.contains '.' then
      some ((charsVal a : ℚ) + (charsVal b : ℚ) / (10 : ℚ) ^ b.length)
    else none

/-- Model of Python `float(s)` on plain decimal strings with an optional sign.
(CPython additionally accepts exponents, inf/nan and whitespace; the upstream
value strings are plain decimals or markers like "N/A", on which the two
agree: "N/A" fails in both.) -/
def parseDecChars : List Char → Option ℚ
  | '-' :: rest => (parseUnsignedChars rest).map (fun q => -q)
  | '+' :: rest => parseUnsignedChars rest
  | l => parseUnsignedChars l

/-- A normalized observation: one row of the fetcher's output table.
The `Date` column "YYYY-MM-01" is carried as the (year, month) pair, the
day always being the first of the month. -/
structure Obs where
  seriesId : String
  seriesName : String
  year : Nat
  month : Nat
  value : ℚ
deriving DecidableEq, Repr

/-- The (Series Name, Date) identity of a row. -/
def obsKey (o : Obs) : String × Nat × Nat := (o.seriesName, o.year, o.month)

/-- One element of a series' `data` array in the upstream JSON.  A field is
`none` when the corresponding key is absent from the JSON object (reading it
then raises `KeyError`). -/
structure DataItem where
  year : Option String
  period : Option String
  value : Option String
deriving DecidableEq, Repr

/-- One element of `Results.series` in the upstream JSON. -/
structure SeriesObj where
  seriesID : Option String
  data : Option (List DataItem)
deriving DecidableEq, Repr

/-- The `Results` container of the upstream JSON. -/
structure ResultsObj where
  series : Option (List SeriesObj)
deriving DecidableEq, Repr

/-- A decoded upstream response body. -/
structure Response where
  status : Option String
  message : Option String
  Results : Option ResultsObj
deriving DecidableEq, Repr

/-- Embeds `BLSDataFetcher.series_map`: series identifier → display name. -/
def series_map : List (String × String) :=
  [("LNS14000000", "Unemployment Rate"),
   ("CES0000000001", "Total Nonfarm Employment"),
   ("CES0500000003", "Average Hourly Earnings"),
   ("CUSR0000SA0", "CPI (Seasonally Adjusted)")]

/-- Embeds `self.series_map.get(series_id, series_id)`: unknown identifiers fall
back to the raw identifier. -/
def seriesNameOf (sid : String) : String :=
  match series_map.find? (fun p => p.1 == sid) with
  | some p => p.2
  | none => sid

/-- The source's filter `'M01' <= period <= 'M12'`: a lexicographic string
range check, not membership in the twelve monthly codes. -/
def periodInRange (p : String) : Bool :=
  lexLe "M01".data p.data && lexLe p.data "M12".data

/-- The twelve monthly period codes named by the specification. -/
def monthlyCodes : List String :=
  ["M01", "M02", "M03", "M04", "M05", "M06",
   "M07", "M08", "M09", "M10", "M11", "M12"]

/-- The body of the inner `for item in series['data']` loop.
`none`: the Python body raised (missing key, or `int` failed);
`some none`: the item produced no row (filtered out, or `float(value)` failed);
`some (some o)`: the row appended to `all_data`. -/
def processItem (sid sname : String) (it : DataItem) : Option (Option Obs) :=
  match it.year, it.period, it.value with
  | some y, some p, some v =>
    if periodInRange p then
      match parseNatChars (p.data.drop 1) with
      | none => none
      | some m =>
        match parseDecChars v.data with
        | none => some none
        | some q =>
          match parseNatChars y.data with
          | none => none
          | some yr => some (some ⟨sid, sname, yr, m, q⟩)
    else some none
  | _, _, _ => none

/-- The inner loop over a series' `data` array, in order. -/
def collectItems (sid sname : String) : List DataItem → Option (List Obs)
  | [] => some []
  | it :: rest => do
    let o? ← processItem sid sname it
    let tail ← collectItems sid sname rest
    pure (match o? with | some o => o :: tail | none => tail)

/-- The body of the outer `for series in json_data['Results']['series']` loop
for one series object. -/
def collectSeries (s : SeriesObj) : Option (List Obs) :=
  match s.seriesID with
  | none => none
  | some sid =>
    match s.data with
    | none => none
    | some items => collectItems sid (seriesNameOf sid) items

/-- The outer loop: rows of all series concatenated in input order. -/
def collectAll : List SeriesObj → Option (List Obs)
  | [] => some []
  | s :: rest => do
    let l ← collectSeries s
    let ls ← collectAll rest
    pure (l ++ ls)

/-- Model of `pd.to_datetime(df['Date'])` succeeding: every reconstructed
date string "YYYY-MM-01" is a real calendar date, i.e. the month lies in
1..12.  (Pandas additionally bounds the year to the Timestamp range; the
years of this data set are modelled as plain naturals.) -/
def monthsValid (l : List Obs) : Bool :=
  l.all (fun o => decide (1 ≤ o.month) && decide (o.month ≤ 12))

/-- Insert with respect to a boolean "less or equal" test. -/
def insrt (le : α → α → Bool) (x : α) : List α → List α
  | [] => [x]
  | y :: ys => if le x y then x :: y :: ys else y :: insrt le x ys

/-- Insertion sort; models the pandas `sort_values` calls.  (Pandas' default
quicksort is not stable; on rows whose sort keys tie the orders may differ,
which no claim under study depends on.) -/
def isort (le : α → α → Bool) : List α → List α
  | [] => []
  | x :: xs => insrt le x (isort le xs)

/-- Chronological comparison of the `Date` column: (year, month) lexicographic. -/
def dateLe (a b : Obs) : Bool :=
  Nat.blt a.year b.year || (a.year == b.year && Nat.ble a.month b.month)

/-- The key order of `df.sort_values(by=['Series Name', 'Date'])`. -/
def rowLe (a b : Obs) : Bool :=
  lexLt a.seriesName.data b.seriesName.data
    || (a.seriesName == b.seriesName && dateLe a b)

/-- Embeds `df.sort_values(by=['Series Name', 'Date'])`. -/
def sortObsTable (l : List Obs) : List Obs := isort rowLe l

/-- Embeds `BLSDataFetcher._process_data`.  `none` means the Python method raised
(the exception is then caught in `fetch_data`). -/
def _process_data (resp : Response) : Option (List Obs) :=
  match resp.Results with
  | none => some []
  | some r =>
    match r.series with
    | none => some []
    | some ss =>
      match collectAll ss with
      | none => none
      | some l => if monthsValid l then some (sortObsTable l) else none

/-- Embeds `BLSDataFetcher.fetch_data`, given the transport outcome: `.error` is a
`requests` exception / non-2xx `raise_for_status` / JSON decode failure;
`.ok` carries the decoded body.  The `except Exception` block maps every
raise to an empty table.  Reading `json_data['status']` raises when the key
is absent; when the status is not "REQUEST_SUCCEEDED" the error print reads
`json_data['message']`, which raises when that key is absent. -/
def fetch_data (transport : Except String Response) : List Obs :=
  match transport with
  | .error _ => []
  | .ok resp =>
    match resp.status with
    | none => []
    | some st =>
      if st == "REQUEST_SUCCEEDED" then
        match _process_data resp with
        | none => []
        | some t => t
      else
        match resp.message with
        | none => []
        | some _ =>
          match _process_data resp with
          | none => []
          | some t => t

/-- A row of the enriched table produced by `calculate_changes`:
the observation plus the 'MoM Change', 'MoM % Change' and 'YoY % Change'
columns (`none` embeds pandas `NaN` from `diff`/`pct_change`). -/
structure EnrichedObs where
  obs : Obs
  momChange : Option ℚ
  momPctChange : Option ℚ
  yoyPctChange : Option ℚ
deriving DecidableEq, Repr

/-- The enriched row at position `i` of a date-sorted group `g`:
`diff()` is `none` at 0 and `v[i] - v[i-1]` after, `pct_change() * 100` is
`none` at 0 and `(v[i]/v[i-1] - 1) * 100` after, `pct_change(12) * 100` is
`none` before 12 and `(v[i]/v[i-12] - 1) * 100` after. -/
def enrichAt (g : List Obs) (i : Nat) (o : Obs) : EnrichedObs :=
  { obs := o
    momChange :=
      if i = 0 then none else (g.get? (i - 1)).map (fun p => o.value - p.value)
    momPctChange :=
      if i = 0 then none
      else (g.get? (i - 1)).map (fun p => (o.value / p.value - 1) * 100)
    yoyPctChange :=
      if i < 12 then none
      else (g.get? (i - 12)).map (fun p => (o.value / p.value - 1) * 100) }

/-- One group's new columns, computed positionally on the sorted group. -/
def enrichGroup (g : List Obs) : List EnrichedObs :=
  g.enum.map (fun p => enrichAt g p.1 p.2)

/-- The group keys of `df.groupby('Series Name')`: the distinct series names,
in ascending order (pandas sorts group keys). -/
def groupNames (df : List Obs) : List String :=
  isort (fun a b => lexLe a.data b.data) (df.map (fun o => o.seriesName)).dedup

/-- One partition of `groupby('Series Name')` after its
`sort_values('Date')`: the rows of the series, date ascending. -/
def groupFor (df : List Obs) (name : String) : List Obs :=
  isort dateLe (df.filter (fun o => o.seriesName == name))

/-- Embeds `calculate_changes` from `src/utils.py`.  On an input with no rows the
loop builds no group and `pd.concat([])` raises `ValueError`, modelled as
`none`; otherwise the enriched groups are concatenated in group-key order. -/
def calculate_changes (df : List Obs) : Option (List EnrichedObs) :=
  match df with
  | [] => none
  | _ =>
    some (((groupNames df).map (fun n => enrichGroup (groupFor df n))).flatten)

/-- The record returned by `get_latest_metrics`. -/
structure LatestMetrics where
  date : Nat × Nat
  value : ℚ
  mom_change : Option ℚ
  mom_pct_change : Option ℚ
  yoy_pct_change : Option ℚ
deriving DecidableEq, Repr

/-- Embeds `get_latest_metrics` from `src/utils.py`: filter to the series, `None`
on an empty selection, else the fields of `series_data.iloc[-1]` — the last
row in the table's existing order. -/
def get_latest_metrics (df : List EnrichedObs) (name : String) :
    Option LatestMetrics :=
  match (df.filter (fun e => e.obs.seriesName == name)).getLast? with
  | none => none
  | some last =>
    some { date := (last.obs.year, last.obs.month)
           value := last.obs.value
           mom_change := last.momChange
           mom_pct_change := last.momPctChange
           yoy_pct_change := last.yoyPctChange }

/-! ### Concrete fixtures used by witnesses and counterexamples -/

/-- A well-formed January observation item. -/
def itemJan : DataItem := ⟨some "2023", some "M01", some "4"⟩

/-- A well-formed February observation item. -/
def itemFeb : DataItem := ⟨some "2023", some "M02", some "5"⟩

/-- An item whose value string fails the numeric parse. -/
def itemNA : DataItem := ⟨some "2023", some "M03", some "N/A"⟩

/-- An item whose period code "M1" is not one of the twelve monthly codes but
satisfies the source's lexicographic range check. -/
def itemM1 : DataItem := ⟨some "2023", some "M1", some "4"⟩

/-- An item lacking the required 'value' key. -/
def itemNoValue : DataItem := ⟨some "2023", some "M01", none⟩

/-- A response whose only data item carries period code "M1". -/
def respM1 : Response :=
  ⟨some "REQUEST_SUCCEEDED", some "",
    some ⟨some [⟨some "LNS14000000", some [itemM1]⟩]⟩⟩

/-- A response that repeats the same (series, year, period) entry. -/
def respDup : Response :=
  ⟨some "REQUEST_SUCCEEDED", some "",
    some ⟨some [⟨some "LNS14000000", some [itemJan, itemJan]⟩]⟩⟩

/-- A non-success response that carries no 'message' key. -/
def respNoMsg : Response :=
  ⟨some "REQUEST_NOT_PROCESSED", none,
    some ⟨some [⟨some "LNS14000000", some [itemJan]⟩]⟩⟩

/-- A non-success response that carries a 'message' key and parseable data. -/
def respSoft : Response :=
  ⟨some "REQUEST_NOT_PROCESSED", some "warning",
    some ⟨some [⟨some "LNS14000000", some [itemJan]⟩]⟩⟩

/-- A successful response with a single February observation. -/
def respW3 : Response :=
  ⟨some "REQUEST_SUCCEEDED", some "",
    some ⟨some [⟨some "LNS14000000", some [itemFeb]⟩]⟩⟩

/-- A response lacking the 'Results' key. -/
def respNoResults : Response := ⟨some "REQUEST_SUCCEEDED", some "", none⟩

/-- A response whose 'Results' container lacks the 'series' key. -/
def respNoSeries : Response := ⟨some "REQUEST_SUCCEEDED", some "", some ⟨none⟩⟩

/-- A response in which one item lacks the required 'value' key. -/
def respMissingValue : Response :=
  ⟨some "REQUEST_SUCCEEDED", some "",
    some ⟨some [⟨some "LNS14000000", some [itemJan, itemNoValue]⟩]⟩⟩

/-- A response whose series data holds a failing-value item between two
well-formed siblings. -/
def respWithNA : Response :=
  ⟨some "REQUEST_SUCCEEDED", some "",
    some ⟨some [⟨some "LNS14000000", some ([itemJan] ++ itemNA :: [itemFeb])⟩]⟩⟩

/-- Fixture `respWithNA` with the failing-value item removed. -/
def respWithoutNA : Response :=
  ⟨some "REQUEST_SUCCEEDED", some "",
    some ⟨some [⟨some "LNS14000000", some ([itemJan] ++ [itemFeb])⟩]⟩⟩

/-- A two-month, duplicate-free response. -/
def respTwoMonths : Response :=
  ⟨some "REQUEST_SUCCEEDED", some "",
    some ⟨some [⟨some "LNS14000000", some [itemJan, itemFeb]⟩]⟩⟩

/-- The observation produced by `itemFeb` in `respW3`. -/
def obsFebW : Obs := ⟨"LNS14000000", "Unemployment Rate", 2023, 2, 5⟩

/-- First chronological row of the fixture series "A Rate". -/
def obsA1 : Obs := ⟨"A", "A Rate", 2023, 1, 7⟩

/-- Second chronological row of the fixture series "A Rate". -/
def obsA2 : Obs := ⟨"A", "A Rate", 2023, 2, 5⟩

/-- First chronological row of the fixture series "B Jobs". -/
def obsB1 : Obs := ⟨"B", "B Jobs", 2023, 1, 10⟩

/-- Thirteenth chronological row of the fixture series "B Jobs": exactly
twelve periods after `obsB1`. -/
def obsB13 : Obs := ⟨"B", "B Jobs", 2024, 1, 25⟩

/-- A two-series input table for the transformer, listed out of
chronological order: 13 rows of "B Jobs" and 2 rows of "A Rate". -/
def dfW : List Obs :=
  [obsA2,
   obsB1, ⟨"B", "B Jobs", 2023, 2, 11⟩, ⟨"B", "B Jobs", 2023, 3, 12⟩,
   ⟨"B", "B Jobs", 2023, 4, 13⟩, ⟨"B", "B Jobs", 2023, 5, 14⟩,
   ⟨"B", "B Jobs", 2023, 6, 15⟩, ⟨"B", "B Jobs", 2023, 7, 16⟩,
   ⟨"B", "B Jobs", 2023, 8, 17⟩, ⟨"B", "B Jobs", 2023, 9, 18⟩,
   ⟨"B", "B Jobs", 2023, 10, 19⟩, ⟨"B", "B Jobs", 2023, 11, 20⟩,
   ⟨"B", "B Jobs", 2023, 12, 21⟩,
   obsA1,
   obsB13]

/-- An enriched row of series "Alpha" dated March. -/
def eAlphaMar : EnrichedObs := ⟨⟨"A", "Alpha", 2023, 3, 9⟩, none, none, none⟩

/-- An enriched row of series "Alpha" dated January, stored after the March
row: the last stored row is not the chronologically newest. -/
def eAlphaJan : EnrichedObs := ⟨⟨"A", "Alpha", 2023, 1, 7⟩, some 1, some 2, none⟩

/-- An enriched row of another series. -/
def eBeta : EnrichedObs := ⟨⟨"B", "Beta", 2023, 2, 3⟩, none, none, none⟩

/-- An enriched table whose "Alpha" rows are NOT date-ascending: the last
stored "Alpha" row (January) predates the first (March). -/
def dfLatest : List EnrichedObs := [eAlphaMar, eBeta, eAlphaJan]

/-! ### Helper lemmas about the embedding -/

theorem insrt_perm (le : α → α → Bool) (x : α) (l : List α) :
    List.Perm (insrt le x l) (x :: l) := by
  induction l with
  | nil => exact List.Perm.refl _
  | cons y ys ih =>
    simp only [insrt]
    by_cases h : le x y = true
    · simp [h]
    · simp only [h, if_false]
      exact (ih.cons y).trans (List.Perm.swap x y ys)

theorem isort_perm (le : α → α → Bool) (l : List α) :
    List.Perm (isort le l) l := by
  induction l with
  | nil => exact List.Perm.refl _
  | cons x xs ih => exact (insrt_perm le x (isort le xs)).trans (ih.cons x)

theorem mem_isort {le : α → α → Bool} {l : List α} {a : α} :
    a ∈ isort le l ↔ a ∈ l :=
  (isort_perm le l).mem_iff

theorem nodup_groupNames (df : List Obs) : (groupNames df).Nodup :=
  (isort_perm _ _).nodup_iff.mpr (List.nodup_dedup _)

theorem mem_groupNames {df : List Obs} {n : String} :
    n ∈ groupNames df ↔ ∃ o ∈ df, o.seriesName = n := by
  unfold groupNames
  rw [mem_isort, List.mem_dedup, List.mem_map]

theorem mem_groupFor {df : List Obs} {n : String} {o : Obs} :
    o ∈ groupFor df n ↔ o ∈ df ∧ o.seriesName = n := by
  unfold groupFor
  rw [mem_isort, List.mem_filter]
  simp only [beq_iff_eq]

theorem enrichGroup_map_obs (g : List Obs) :
    (enrichGroup g).map (fun e => e.obs) = g := by
  unfold enrichGroup
  rw [List.map_map]
  have : ((fun e => e.obs) ∘ fun p : Nat × Obs => enrichAt g p.1 p.2) = Prod.snd := by
    funext p; rfl
  rw [this, List.enum_map_snd]

theorem obs_mem_of_mem_enrichGroup {g : List Obs} {e : EnrichedObs}
    (h : e ∈ enrichGroup g) : e.obs ∈ g := by
  have := List.mem_map_of_mem (fun e => e.obs) h
  rwa [enrichGroup_map_obs] at this

theorem enrichGroup_get? (g : List Obs) (i : Nat) :
    (enrichGroup g).get? i = (g.get? i).map (enrichAt g i) := by
  unfold enrichGroup
  rw [List.get?_map, List.get?_enum]
  cases g.get? i <;> rfl

theorem seriesName_of_mem_enrichGroup {df : List Obs} {n : String}
    {e : EnrichedObs} (h : e ∈ enrichGroup (groupFor df n)) :
    e.obs.seriesName = n :=
  (mem_groupFor.mp (obs_mem_of_mem_enrichGroup h)).2

theorem filter_flatten_groups (df : List Obs) (name : String) :
    (((groupNames df).map (fun n => enrichGroup (groupFor df n))).flatten).filter
        (fun e => e.obs.seriesName == name) =
      enrichGroup (groupFor df name) := by
  have aux : ∀ names : List String, names.Nodup →
      ((names.map (fun n => enrichGroup (groupFor df n))).flatten).filter
          (fun e => e.obs.seriesName == name) =
        (if name ∈ names then enrichGroup (groupFor df name) else []) := by
    intro names hnd
    induction names with
    | nil => simp
    | cons n ns ih =>
      rw [List.map_cons, List.flatten_cons, List.filter_append,
        ih hnd.of_cons]
      by_cases hn : n = name
      · subst hn
        have h1 : (enrichGroup (groupFor df n)).filter
            (fun e => e.obs.seriesName == n) = enrichGroup (groupFor df n) := by
          rw [List.filter_eq_self]
          intro e he
          exact beq_iff_eq.mpr (seriesName_of_mem_enrichGroup he)
        have h2 : n ∉ ns := (List.nodup_cons.mp hnd).1
        simp [h1, h2]
      · have h1 : (enrichGroup (groupFor df n)).filter
            (fun e => e.obs.seriesName == name) = [] := by
          rw [List.filter_eq_nil_iff]
          intro e he
          simp only [beq_iff_eq]
          rw [seriesName_of_mem_enrichGroup he]
          exact hn
        have hn' : name ≠ n := fun h => hn h.symm
        by_cases hm : name ∈ ns <;> simp [h1, hn', hm]
  rw [aux (groupNames df) (nodup_groupNames df)]
  by_cases hmem : name ∈ groupNames df
  · simp [hmem]
  · have hfil : df.filter (fun o => o.seriesName == name) = [] := by
      rw [List.filter_eq_nil_iff]
      intro o ho hbeq
      exact hmem (mem_groupNames.mpr ⟨o, ho, beq_iff_eq.mp hbeq⟩)
    simp only [hmem, if_false]
    unfold groupFor
    rw [hfil]
    rfl

theorem flatten_filters_perm (df : List Obs) :
    ∀ names : List String, names.Nodup → (∀ o ∈ df, o.seriesName ∈ names) →
      List.Perm
        ((names.map (fun n => df.filter (fun o => o.seriesName == n))).flatten)
        df := by
  intro names
  induction names generalizing df with
  | nil =>
    intro _ hc
    have : df = [] := List.eq_nil_iff_forall_not_mem.mpr (fun o ho => by
      simpa using hc o ho)
    simp [this]
  | cons n ns ih =>
    intro hnd hc
    rw [List.map_cons, List.flatten_cons]
    have hstep : ∀ m ∈ ns,
        df.filter (fun o => o.seriesName == m) =
          (df.filter (fun o => !(o.seriesName == n))).filter
            (fun o => o.seriesName == m) := by
      intro m hm
      have hmn : m ≠ n := fun hEq => (List.nodup_cons.mp hnd).1 (hEq ▸ hm)
      rw [List.filter_filter]
      apply List.filter_congr
      intro o _
      by_cases h : o.seriesName = m
      · simp [h, hmn]
      · simp [h]
    have hmapeq :
        ns.map (fun m => df.filter (fun o => o.seriesName == m)) =
          ns.map (fun m => (df.filter (fun o => !(o.seriesName == n))).filter
            (fun o => o.seriesName == m)) :=
      List.map_congr_left hstep
    rw [hmapeq]
    have hcov : ∀ o ∈ df.filter (fun o => !(o.seriesName == n)),
        o.seriesName ∈ ns := by
      intro o ho
      rcases List.mem_filter.mp ho with ⟨hodf, hne⟩
      have := hc o hodf
      rcases List.mem_cons.mp this with h | h
      · exfalso; simp [h] at hne
      · exact h
    have ihp := ih (df.filter (fun o => !(o.seriesName == n)))
      (List.nodup_cons.mp hnd).2 hcov
    exact List.Perm.trans (List.Perm.append_left _ ihp)
      (List.filter_append_perm _ df)

theorem flatten_groupFor_perm (df : List Obs) :
    List.Perm (((groupNames df).map (fun n => groupFor df n)).flatten) df := by
  have h1 : List.Perm
      (((groupNames df).map (fun n => groupFor df n)).flatten)
      (((groupNames df).map
        (fun n => df.filter (fun o => o.seriesName == n))).flatten) := by
    have : ∀ names : List String, List.Perm
        ((names.map (fun n => groupFor df n)).flatten)
        ((names.map (fun n => df.filter (fun o => o.seriesName == n))).flatten) := by
      intro names
      induction names with
      | nil => exact List.Perm.refl _
      | cons n ns ih =>
        rw [List.map_cons, List.map_cons, List.flatten_cons, List.flatten_cons]
        exact (isort_perm dateLe _).append ih
    exact this _
  have h2 := flatten_filters_perm df (groupNames df) (nodup_groupNames df)
    (fun o ho => mem_groupNames.mpr ⟨o, ho, rfl⟩)
  exact h1.trans h2

theorem processItem_some_some {sid sname : String} {it : DataItem} {ob : Obs}
    (h : processItem sid sname it = some (some ob)) :
    ∃ y p v, it.year = some y ∧ it.period = some p ∧ it.value = some v ∧
      periodInRange p = true ∧
      parseNatChars (p.data.drop 1) = some ob.month ∧
      parseDecChars v.data = some ob.value ∧
      parseNatChars y.data = some ob.year ∧
      ob.seriesId = sid ∧ ob.seriesName = sname := by
  rcases hy : it.year with _ | y <;> rcases hp : it.period with _ | p <;>
    rcases hv : it.value with _ | v <;>
    simp only [processItem, hy, hp, hv] at h <;>
    try exact Option.noConfusion h
  by_cases hR : periodInRange p
  · rw [if_pos hR] at h
    rcases hm : parseNatChars (p.data.drop 1) with _ | m <;> rw [hm] at h
    · exact absurd h (by simp)
    rcases hq : parseDecChars v.data with _ | q <;> rw [hq] at h
    · exact absurd h (by simp)
    rcases hyr : parseNatChars y.data with _ | yr <;> rw [hyr] at h
    · exact absurd h (by simp)
    have hob : ob = ⟨sid, sname, yr, m, q⟩ := by
      have := Option.some.inj (Option.some.inj h)
      exact this.symm
    subst hob
    exact ⟨y, p, v, rfl, rfl, rfl, hR, hm, hq, hyr, rfl, rfl⟩
  · rw [if_neg hR] at h
    exact absurd h (by simp)

theorem collectItems_mem {sid sname : String} {items : List DataItem}
    {l : List Obs} (h : collectItems sid sname items = some l)
    {o : Obs} (ho : o ∈ l) :
    ∃ it ∈ items, processItem sid sname it = some (some o) := by
  induction items generalizing l with
  | nil =>
    simp only [collectItems] at h
    rcases Option.some.inj h with rfl
    exact absurd ho (by simp)
  | cons it rest ih =>
    simp only [collectItems, bind, Option.bind] at h
    rcases hp : processItem sid sname it with _ | o? <;> rw [hp] at h
    · exact absurd h (by simp)
    rcases hr : collectItems sid sname rest with _ | tail <;> rw [hr] at h
    · exact absurd h (by simp)
    have hl := Option.some.inj h
    rcases o? with _ | ob
    · subst hl
      rcases ih hr ho with ⟨it', hit', hpi⟩
      exact ⟨it', List.mem_cons_of_mem _ hit', hpi⟩
    · rw [← hl] at ho
      rcases List.mem_cons.mp ho with rfl | htail
      · exact ⟨it, List.mem_cons_self _ _, hp⟩
      · rcases ih hr htail with ⟨it', hit', hpi⟩
        exact ⟨it', List.mem_cons_of_mem _ hit', hpi⟩

theorem collectAll_mem {ss : List SeriesObj} {l : List Obs}
    (h : collectAll ss = some l) {o : Obs} (ho : o ∈ l) :
    ∃ s ∈ ss, ∃ sid items, s.seriesID = some sid ∧ s.data = some items ∧
      ∃ it ∈ items, processItem sid (seriesNameOf sid) it = some (some o) := by
  induction ss generalizing l with
  | nil =>
    simp only [collectAll] at h
    rcases Option.some.inj h with rfl
    exact absurd ho (by simp)
  | cons s rest ih =>
    simp only [collectAll, bind, Option.bind] at h
    rcases hs : collectSeries s with _ | l1 <;> rw [hs] at h
    · exact absurd h (by simp)
    rcases hr : collectAll rest with _ | l2 <;> rw [hr] at h
    · exact absurd h (by simp)
    have hl := Option.some.inj h
    rw [← hl] at ho
    rcases List.mem_append.mp ho with h1 | h2
    · rcases hsid : s.seriesID with _ | sid
      · rw [collectSeries, hsid] at hs; exact absurd hs (by simp)
      rcases hdat : s.data with _ | items
      · rw [collectSeries, hsid, hdat] at hs; exact absurd hs (by simp)
      rw [collectSeries, hsid, hdat] at hs
      rcases collectItems_mem hs h1 with ⟨it, hit, hpi⟩
      exact ⟨s, List.mem_cons_self _ _, sid, items, hsid, hdat, it, hit, hpi⟩
    · rcases ih hr h2 with ⟨s', hs', rest'⟩
      exact ⟨s', List.mem_cons_of_mem _ hs', rest'⟩

theorem processItem_none_of_missing {sid sname : String} {it : DataItem}
    (h : it.year = none ∨ it.period = none ∨ it.value = none) :
    processItem sid sname it = none := by
  rcases hy : it.year with _ | y <;> rcases hp : it.period with _ | p <;>
    rcases hv : it.value with _ | v <;> simp only [processItem, hy, hp, hv]
  rw [hy, hp, hv] at h
  rcases h with h | h | h <;> exact absurd h (by simp)

theorem collectItems_none_of_mem {sid sname : String} {items : List DataItem}
    {it : DataItem} (hit : it ∈ items)
    (h : processItem sid sname it = none) :
    collectItems sid sname items = none := by
  induction items with
  | nil => exact absurd hit (by simp)
  | cons a rest ih =>
    simp only [collectItems, bind, Option.bind]
    rcases List.mem_cons.mp hit with rfl | htail
    · rw [h]
    · rcases hp : processItem sid sname a with _ | o?
      · rfl
      · rw [ih htail]

theorem collectAll_none_of_mem {ss : List SeriesObj} {s : SeriesObj}
    (hs : s ∈ ss) (h : collectSeries s = none) : collectAll ss = none := by
  induction ss with
  | nil => exact absurd hs (by simp)
  | cons a rest ih =>
    simp only [collectAll, bind, Option.bind]
    rcases List.mem_cons.mp hs with rfl | htail
    · rw [h]
    · rcases ha : collectSeries a with _ | l1
      · rfl
      · rw [ih htail]

theorem fetch_data_of_process_none {resp : Response}
    (h : _process_data resp = none) : fetch_data (.ok resp) = [] := by
  rcases hs : resp.status with _ | st
  · simp [fetch_data, hs]
  · by_cases hst : (st == "REQUEST_SUCCEEDED") = true
    · simp [fetch_data, hs, hst, h]
    · rcases hm : resp.message with _ | m
      · simp [fetch_data, hs, hst, hm]
      · simp [fetch_data, hs, hst, hm, h]

theorem fetch_data_of_process_empty {resp : Response}
    (h : _process_data resp = some []) : fetch_data (.ok resp) = [] := by
  rcases hs : resp.status with _ | st
  · simp [fetch_data, hs]
  · by_cases hst : (st == "REQUEST_SUCCEEDED") = true
    · simp [fetch_data, hs, hst, h]
    · rcases hm : resp.message with _ | m
      · simp [fetch_data, hs, hst, hm]
      · simp [fetch_data, hs, hst, hm, h]

theorem fetch_data_cases {resp : Response} :
    fetch_data (.ok resp) = [] ∨
      fetch_data (.ok resp) = (_process_data resp).getD [] := by
  rcases hs : resp.status with _ | st
  · exact Or.inl (by simp [fetch_data, hs])
  · by_cases hst : (st == "REQUEST_SUCCEEDED") = true
    · rcases hp : _process_data resp with _ | t
      · exact Or.inl (by simp [fetch_data, hs, hst, hp])
      · exact Or.inr (by simp [fetch_data, hs, hst, hp])
    · rcases hm : resp.message with _ | m
      · exact Or.inl (by simp [fetch_data, hs, hst, hm])
      · rcases hp : _process_data resp with _ | t
        · exact Or.inl (by simp [fetch_data, hs, hst, hm, hp])
        · exact Or.inr (by simp [fetch_data, hs, hst, hm, hp])

theorem collectItems_drop {sid sname : String} {it : DataItem}
    (hskip : processItem sid sname it = some none) :
    ∀ its1 its2, collectItems sid sname (its1 ++ it :: its2) =
      collectItems sid sname (its1 ++ its2) := by
  intro its1
  induction its1 with
  | nil =>
    intro its2
    rcases h2 : collectItems sid sname its2 with _ | tail <;>
      simp [collectItems, hskip, h2]
  | cons a rest ih =>
    intro its2
    simp [collectItems, bind, Option.bind, ih]

theorem collectAll_congr_mid {s s' : SeriesObj}
    (h : collectSeries s = collectSeries s') :
    ∀ pre post, collectAll (pre ++ s :: post) = collectAll (pre ++ s' :: post) := by
  intro pre
  induction pre with
  | nil =>
    intro post
    simp only [List.nil_append, collectAll]
    rw [h]
  | cons a rest ih =>
    intro post
    simp [collectAll, bind, Option.bind, ih]

/-! ### Claim theorems -/

/-- C4: for every invocation of fetchData, if the HTTP request fails
(network error or non-2xx status — the `.error` transport outcome), the
response body is malformed (also `.error`: the JSON decode raises), or the
expected nested containers Results.series are absent, the call returns an
empty table; `fetch_data` is a total function, so no exception propagates. -/
theorem fetch_degrades_to_empty :
    (∀ e : String, fetch_data (.error e) = []) ∧
    (∀ resp : Response, resp.Results = none → fetch_data (.ok resp) = []) ∧
    (∀ (resp : Response) (r : ResultsObj), resp.Results = some r →
      r.series = none → fetch_data (.ok resp) = []) := by
  refine ⟨fun e => rfl, fun resp h => ?_, fun resp r h1 h2 => ?_⟩
  · exact fetch_data_of_process_empty (by simp [_process_data, h])
  · exact fetch_data_of_process_empty (by simp [_process_data, h1, h2])

/-- C4 witness: the degradation cases evaluated at a transport error, at a
response with no Results container, and at one with no series array. -/
theorem fetch_degrades_to_empty_witness :
    fetch_data (.error "connection refused") = [] ∧
    fetch_data (.ok respNoResults) = [] ∧
    fetch_data (.ok respNoSeries) = [] :=
  ⟨fetch_degrades_to_empty.1 "connection refused",
   fetch_degrades_to_empty.2.1 respNoResults rfl,
   fetch_degrades_to_empty.2.2 respNoSeries ⟨none⟩ rfl rfl⟩

/-- C5: getLatestMetrics returns an explicit absent result (`none`, no
exception — the function is total) when the table has zero rows for the
series name, and otherwise returns the fields of the row at the last stored
position among that series' rows in the table's existing order; it performs
no maximum-date selection of its own. -/
theorem get_latest_metrics_spec (df : List EnrichedObs) (name : String) :
    (df.filter (fun e => e.obs.seriesName == name) = [] →
      get_latest_metrics df name = none) ∧
    (∀ (rest : List EnrichedObs) (last : EnrichedObs),
      df.filter (fun e => e.obs.seriesName == name) = rest ++ [last] →
      get_latest_metrics df name =
        some ⟨(last.obs.year, last.obs.month), last.obs.value,
              last.momChange, last.momPctChange, last.yoyPctChange⟩) := by
  constructor
  · intro h
    simp only [get_latest_metrics, h]
    rfl
  · intro rest last h
    simp only [get_latest_metrics, h, List.getLast?_concat]

/-- C5 witness: on a table whose "Alpha" rows are stored out of date order,
the accessor returns the last stored (January) row, not the maximum-date
(March) row; an unknown series yields `none`. -/
theorem get_latest_metrics_spec_witness :
    dfLatest.filter (fun e => e.obs.seriesName == "Alpha") =
      [eAlphaMar] ++ [eAlphaJan] ∧
    get_latest_metrics dfLatest "Alpha" =
      some ⟨(2023, 1), 7, some 1, some 2, none⟩ ∧
    dfLatest.filter (fun e => e.obs.seriesName == "Nope") = [] ∧
    get_latest_metrics dfLatest "Nope" = none ∧
    eAlphaMar.obs.year = 2023 ∧ eAlphaMar.obs.month = 3 ∧ (2023, 1) ≠ ((2023, 3) : Nat × Nat) := by
  refine ⟨rfl, ?_, rfl, ?_, rfl, rfl, by decide⟩
  · exact (get_latest_metrics_spec dfLatest "Alpha").2 [eAlphaMar] eAlphaJan rfl
  · exact (get_latest_metrics_spec dfLatest "Nope").1 rfl

/-- C8 (amended): for every response whose status field is not
"REQUEST_SUCCEEDED", PROVIDED the response also carries a message field,
fetchData logs and still parses the present series arrays, returning the
parsed observations; when the message field is absent the logging lookup
itself raises and the call degrades to an empty table (see the
counterexample). -/
theorem soft_error_still_parses (resp : Response) (st m : String)
    (t : List Obs) (h1 : resp.status = some st)
    (h2 : st ≠ "REQUEST_SUCCEEDED") (h3 : resp.message = some m)
    (h4 : _process_data resp = some t) : fetch_data (.ok resp) = t := by
  have hb : (st == "REQUEST_SUCCEEDED") = false := beq_eq_false_iff_ne.mpr h2
  simp [fetch_data, h1, hb, h3, h4]

/-- C8 witness: a non-success response with a message and one parseable
observation is parsed rather than emptied. -/
theorem soft_error_still_parses_witness :
    respSoft.status = some "REQUEST_NOT_PROCESSED" ∧
    "REQUEST_NOT_PROCESSED" ≠ "REQUEST_SUCCEEDED" ∧
    respSoft.message = some "warning" ∧
    fetch_data (.ok respSoft) = (_process_data respSoft).getD [] ∧
    ((_process_data respSoft).getD []).map obsKey =
      [("Unemployment Rate", 2023, 1)] := by
  refine ⟨rfl, by decide, rfl, ?_, by decide⟩
  exact soft_error_still_parses respSoft "REQUEST_NOT_PROCESSED" "warning"
    ((_process_data respSoft).getD []) rfl (by decide) rfl rfl

/-- C8 counterexample: the claim fails as stated.  This non-success response
carries parseable data (one observation) but no message field; the logging
f-string's `json_data['message']` lookup raises, the exception is caught,
and fetchData returns an empty table instead of the parsed observations. -/
theorem soft_error_counterexample :
    respNoMsg.status = some "REQUEST_NOT_PROCESSED" ∧
    respNoMsg.message = none ∧
    ((_process_data respNoMsg).getD []).map obsKey =
      [("Unemployment Rate", 2023, 1)] ∧
    fetch_data (.ok respNoMsg) = [] := by
  refine ⟨rfl, rfl, by decide, rfl⟩

/-- C10: when some series object or data item inside Results.series lacks a
required key (seriesID, data, year, period or value), the KeyError aborts
`_process_data`, is caught at the fetch boundary, and the whole batch
degrades to an empty table. -/
theorem missing_key_discards_batch (resp : Response) (r : ResultsObj)
    (ss : List SeriesObj) (h1 : resp.Results = some r)
    (h2 : r.series = some ss)
    (hbad : ∃ s ∈ ss, s.seriesID = none ∨ s.data = none ∨
      ∃ items, s.data = some items ∧ ∃ it ∈ items,
        (it.year = none ∨ it.period = none ∨ it.value = none)) :
    fetch_data (.ok resp) = [] := by
  rcases hbad with ⟨s, hs, hcase⟩
  have hnone : collectSeries s = none := by
    rcases hcase with h | h | ⟨items, hitems, it, hit, hmiss⟩
    · unfold collectSeries; rw [h]
    · unfold collectSeries
      rcases hsid : s.seriesID with _ | sid
      · rfl
      · rw [h]
    · unfold collectSeries
      rcases hsid : s.seriesID with _ | sid
      · rfl
      · rw [hitems]
        exact collectItems_none_of_mem hit (processItem_none_of_missing hmiss)
  apply fetch_data_of_process_none
  simp [_process_data, h1, h2, collectAll_none_of_mem hs hnone]

/-- C10 witness: a response whose second item lacks the 'value' key yields an
empty table even though its first item is well-formed. -/
theorem missing_key_discards_batch_witness :
    respMissingValue.Results = some ⟨some [⟨some "LNS14000000", some [itemJan, itemNoValue]⟩]⟩ ∧
    itemNoValue.value = none ∧
    fetch_data (.ok respMissingValue) = [] := by
  refine ⟨rfl, rfl, ?_⟩
  exact missing_key_discards_batch respMissingValue
    ⟨some [⟨some "LNS14000000", some [itemJan, itemNoValue]⟩]⟩
    [⟨some "LNS14000000", some [itemJan, itemNoValue]⟩] rfl rfl
    ⟨⟨some "LNS14000000", some [itemJan, itemNoValue]⟩, List.mem_cons_self _ _,
      Or.inr (Or.inr ⟨[itemJan, itemNoValue], rfl,
        itemNoValue, by decide, Or.inr (Or.inr rfl)⟩)⟩

/-- C6: an observation whose value string fails the numeric parse is dropped
by itself: removing that very item from the series' data array leaves the
processed table unchanged, so it is never stored (with a null value or
otherwise) and every other observation of the series and of the batch is
retained unchanged. -/
theorem bad_value_dropped_alone (st msg : Option String)
    (pre post : List SeriesObj) (sid : Option String)
    (its1 its2 : List DataItem) (it : DataItem) (y p v : String)
    (hy : it.year = some y) (hp : it.period = some p) (hv : it.value = some v)
    (hr : periodInRange p = true)
    (hm : (parseNatChars (p.data.drop 1)).isSome = true)
    (hq : parseDecChars v.data = none) :
    _process_data ⟨st, msg,
        some ⟨some (pre ++ ⟨sid, some (its1 ++ it :: its2)⟩ :: post)⟩⟩ =
      _process_data ⟨st, msg,
        some ⟨some (pre ++ ⟨sid, some (its1 ++ its2)⟩ :: post)⟩⟩ := by
  have hskip : ∀ sid' sname', processItem sid' sname' it = some none := by
    intro sid' sname'
    rcases hm2 : parseNatChars (p.data.drop 1) with _ | m
    · rw [hm2] at hm; exact absurd hm (by simp)
    · simp only [processItem, hy, hp, hv, if_pos hr, hm2, hq]
  have hcs : collectSeries ⟨sid, some (its1 ++ it :: its2)⟩ =
      collectSeries ⟨sid, some (its1 ++ its2)⟩ := by
    rcases sid with _ | sid'
    · rfl
    · simp only [collectSeries]
      exact collectItems_drop (hskip _ _) its1 its2
  simp only [_process_data]
  rw [collectAll_congr_mid hcs pre post]

/-- C6 witness: dropping the "N/A" March item between the January and
February items changes nothing; both siblings survive. -/
theorem bad_value_dropped_alone_witness :
    itemNA.value = some "N/A" ∧ parseDecChars "N/A".data = none ∧
    _process_data respWithNA = _process_data respWithoutNA ∧
    (_process_data respWithoutNA).map (List.map obsKey) =
      some [("Unemployment Rate", 2023, 1), ("Unemployment Rate", 2023, 2)] := by
  refine ⟨rfl, by decide, ?_, by decide⟩
  exact bad_value_dropped_alone (some "REQUEST_SUCCEEDED") (some "") [] []
    (some "LNS14000000") [itemJan] [itemFeb] itemNA "2023" "M03" "N/A"
    rfl rfl rfl (by decide) (by decide) (by decide)

theorem calculate_changes_eq_form {df : List Obs} {out : List EnrichedObs}
    (hout : calculate_changes df = some out) :
    out = ((groupNames df).map (fun n => enrichGroup (groupFor df n))).flatten := by
  rcases df with _ | ⟨o, rest⟩
  · exact absurd hout (by simp [calculate_changes])
  · exact (Option.some.inj hout).symm

/-- C1: in the table produced by calculateChanges, the slice belonging to a
series name is exactly the enrichment of that series' own date-sorted
partition (so the lag window never crosses a series boundary), and on that
partition momChange is undefined at index 0 and equals
value[i] - value[i-1] at every later index. -/
theorem mom_change_within_series (df : List Obs) (name : String)
    (out : List EnrichedObs) (hout : calculate_changes df = some out) :
    out.filter (fun e => e.obs.seriesName == name) =
      enrichGroup (groupFor df name) ∧
    (∀ e, (enrichGroup (groupFor df name)).get? 0 = some e →
      e.momChange = none) ∧
    (∀ (i : Nat) (a b : Obs) (e : EnrichedObs),
      (groupFor df name).get? i = some a →
      (groupFor df name).get? (i + 1) = some b →
      (enrichGroup (groupFor df name)).get? (i + 1) = some e →
      e.momChange = some (b.value - a.value)) := by
  refine ⟨?_, ?_, ?_⟩
  · rw [calculate_changes_eq_form hout]
    exact filter_flatten_groups df name
  · intro e he
    rw [enrichGroup_get?] at he
    rcases hg : (groupFor df name).get? 0 with _ | a <;> rw [hg] at he
    · exact absurd he (by simp)
    · have heq : e = enrichAt (groupFor df name) 0 a := (Option.some.inj he).symm
      subst heq
      rfl
  · intro i a b e ha hb he
    rw [enrichGroup_get?, hb] at he
    have heq : e = enrichAt (groupFor df name) (i + 1) b :=
      (Option.some.inj he).symm
    subst heq
    simp only [enrichAt]
    rw [if_neg (Nat.succ_ne_zero i)]
    simp only [Nat.add_sub_cancel]
    rw [ha]
    rfl

/-- C1 witness: on the two-series fixture table, the "A Rate" partition
(stored out of order, re-sorted to January then February) has momChange
undefined at its own index 0 and 5 - 7 = -2 at index 1. -/
theorem mom_change_within_series_witness :
    calculate_changes dfW =
      some (((groupNames dfW).map (fun n => enrichGroup (groupFor dfW n))).flatten) ∧
    ((enrichGroup (groupFor dfW "A Rate")).get? 0).map (fun e => e.momChange) =
      some none ∧
    ((enrichGroup (groupFor dfW "A Rate")).get? 1).map (fun e => e.momChange) =
      some (some (-2)) := by
  have h := mom_change_within_series dfW "A Rate" _ rfl
  refine ⟨rfl, ?_, ?_⟩
  · have h0 : (enrichGroup (groupFor dfW "A Rate")).get? 0 =
        some (enrichAt (groupFor dfW "A Rate") 0 obsA1) := rfl
    rw [h0, Option.map_some', h.2.1 _ h0]
  · have h1 : (enrichGroup (groupFor dfW "A Rate")).get? 1 =
        some (enrichAt (groupFor dfW "A Rate") 1 obsA2) := rfl
    have hm := h.2.2 0 obsA1 obsA2 _ rfl rfl h1
    rw [h1, Option.map_some', hm]
    norm_num [obsA1, obsA2]

/-- C2: in the table produced by calculateChanges, the slice belonging to a
series name is the enrichment of that series' own date-sorted partition (the
12-period lag is strictly intra-series), and on that partition yoyPctChange
is undefined at every index below 12 and equals
(value[i]/value[i-12] - 1) * 100 from index 12 on. -/
theorem yoy_change_within_series (df : List Obs) (name : String)
    (out : List EnrichedObs) (hout : calculate_changes df = some out) :
    out.filter (fun e => e.obs.seriesName == name) =
      enrichGroup (groupFor df name) ∧
    (∀ (i : Nat) (e : EnrichedObs), i < 12 →
      (enrichGroup (groupFor df name)).get? i = some e →
      e.yoyPctChange = none) ∧
    (∀ (i : Nat) (a b : Obs) (e : EnrichedObs),
      (groupFor df name).get? i = some a →
      (groupFor df name).get? (i + 12) = some b →
      (enrichGroup (groupFor df name)).get? (i + 12) = some e →
      e.yoyPctChange = some ((b.value / a.value - 1) * 100)) := by
  refine ⟨?_, ?_, ?_⟩
  · rw [calculate_changes_eq_form hout]
    exact filter_flatten_groups df name
  · intro i e hi he
    rw [enrichGroup_get?] at he
    rcases hg : (groupFor df name).get? i with _ | a <;> rw [hg] at he
    · exact absurd he (by simp)
    · have heq : e = enrichAt (groupFor df name) i a := (Option.some.inj he).symm
      subst heq
      simp only [enrichAt]
      rw [if_pos hi]
  · intro i a b e ha hb he
    rw [enrichGroup_get?, hb] at he
    have heq : e = enrichAt (groupFor df name) (i + 12) b :=
      (Option.some.inj he).symm
    subst heq
    simp only [enrichAt]
    rw [if_neg (by omega : ¬ i + 12 < 12)]
    simp only [Nat.add_sub_cancel]
    rw [ha]
    rfl

/-- C2 witness: on the 13-row "B Jobs" partition of the fixture table,
yoyPctChange is undefined at index 11 and equals (25/10 - 1) * 100 = 150 at
index 12. -/
theorem yoy_change_within_series_witness :
    calculate_changes dfW =
      some (((groupNames dfW).map (fun n => enrichGroup (groupFor dfW n))).flatten) ∧
    ((enrichGroup (groupFor dfW "B Jobs")).get? 11).map (fun e => e.yoyPctChange) =
      some none ∧
    ((enrichGroup (groupFor dfW "B Jobs")).get? 12).map (fun e => e.yoyPctChange) =
      some (some 150) := by
  have h := yoy_change_within_series dfW "B Jobs" _ rfl
  refine ⟨rfl, ?_, ?_⟩
  · have h11 : (enrichGroup (groupFor dfW "B Jobs")).get? 11 =
        some (enrichAt (groupFor dfW "B Jobs") 11 ⟨"B", "B Jobs", 2023, 12, 21⟩) :=
      rfl
    rw [h11, Option.map_some', h.2.1 11 _ (by norm_num) h11]
  · have h12 : (enrichGroup (groupFor dfW "B Jobs")).get? 12 =
        some (enrichAt (groupFor dfW "B Jobs") 12 obsB13) := rfl
    have hm := h.2.2 0 obsB1 obsB13 _ rfl rfl h12
    rw [h12, Option.map_some', hm]
    norm_num [obsB1, obsB13]

/-- C7 (amended): for every NONEMPTY input table, calculateChanges returns a
table whose underlying observations are a permutation of the input (row count
and the multiset of (seriesName, date) identities are preserved, only the
three change columns are added), and whose slice for each series name is that
series' partition in chronological (date-ascending) order.  On the empty
table the function instead raises (see the counterexample). -/
theorem calculate_changes_preserves (df : List Obs) (hdf : df ≠ []) :
    ∃ out, calculate_changes df = some out ∧
      List.Perm (out.map (fun e => e.obs)) df ∧
      ∀ name, out.filter (fun e => e.obs.seriesName == name) =
        enrichGroup (groupFor df name) := by
  refine ⟨((groupNames df).map (fun n => enrichGroup (groupFor df n))).flatten,
    ?_, ?_, ?_⟩
  · rcases df with _ | ⟨o, rest⟩
    · exact absurd rfl hdf
    · rfl
  · rw [List.map_flatten, List.map_map]
    have hcomp : (List.map (fun e : EnrichedObs => e.obs)) ∘
        (fun n => enrichGroup (groupFor df n)) = fun n => groupFor df n := by
      funext n
      exact enrichGroup_map_obs (groupFor df n)
    rw [hcomp]
    exact flatten_groupFor_perm df
  · intro name
    exact filter_flatten_groups df name

/-- C7 counterexample: the claim fails on the empty table: groupby yields no
partitions, the list fed to pd.concat is empty and pd.concat raises
ValueError (modelled as `none`), so no table — preserving the zero rows — is
returned. -/
theorem calculate_changes_empty_counterexample :
    calculate_changes ([] : List Obs) = none := rfl

/-- C7 witness: the preservation properties evaluated on the nonempty
two-series fixture table. -/
theorem calculate_changes_preserves_witness :
    dfW ≠ [] ∧
    ∃ out, calculate_changes dfW = some out ∧
      List.Perm (out.map (fun e => e.obs)) dfW ∧
      ∀ name, out.filter (fun e => e.obs.seriesName == name) =
        enrichGroup (groupFor dfW name) :=
  ⟨by decide, calculate_changes_preserves dfW (by decide)⟩

/-- C3 (amended): every observation in the fetcher's output originates from
a data item whose period code satisfies the source's LEXICOGRAPHIC range
check 'M01' <= period <= 'M12' — not necessarily membership in the twelve
codes M01..M12, which the counterexample refutes; the observation's month is
the integer value of the period code's suffix, it lies in 1..12 (the
reconstructed date is the first of that month), and "M13" fails the range
check, so M13 items yield no output. -/
theorem period_filter_provenance (resp : Response) (t : List Obs) (o : Obs)
    (ht : _process_data resp = some t) (ho : o ∈ t) :
    (1 ≤ o.month ∧ o.month ≤ 12) ∧ periodInRange "M13" = false ∧
    ∃ r, resp.Results = some r ∧ ∃ ss, r.series = some ss ∧
      ∃ s ∈ ss, ∃ sid items, s.seriesID = some sid ∧ s.data = some items ∧
        ∃ it ∈ items, ∃ p, it.period = some p ∧ periodInRange p = true ∧
          parseNatChars (p.data.drop 1) = some o.month ∧
          o.seriesName = seriesNameOf sid := by
  rcases hR : resp.Results with _ | r <;> simp only [_process_data, hR] at ht
  · have : ([] : List Obs) = t := Option.some.inj ht
    rw [← this] at ho
    exact absurd ho (by simp)
  rcases hS : r.series with _ | ss <;> simp only [hS] at ht
  · have : ([] : List Obs) = t := Option.some.inj ht
    rw [← this] at ho
    exact absurd ho (by simp)
  rcases hC : collectAll ss with _ | l <;> simp only [hC] at ht
  · exact absurd ht (by simp)
  by_cases hv : monthsValid l = true
  · rw [if_pos hv] at ht
    have hts : t = sortObsTable l := (Option.some.inj ht).symm
    subst hts
    have hol : o ∈ l := mem_isort.mp ho
    rw [monthsValid] at hv
    have hmon := List.all_eq_true.mp hv o hol
    rcases Bool.and_eq_true_iff.mp hmon with ⟨hm1, hm2⟩
    rcases collectAll_mem hC hol with
      ⟨s, hsmem, sid, items, hsid, hdat, it, hit, hpi⟩
    rcases processItem_some_some hpi with
      ⟨y, p, v, hy, hp2, hv2, hrange, hmonth, hval, hyear, hsid2, hsname⟩
    exact ⟨⟨of_decide_eq_true hm1, of_decide_eq_true hm2⟩, by decide,
      r, rfl, ss, hS, s, hsmem, sid, items, hsid, hdat, it, hit, p, hp2,
      hrange, hmonth, hsname⟩
  · rw [if_neg hv] at ht
    exact absurd ht (by simp)

/-- C3 counterexample: the claim as stated is false.  Period code "M1" is not
one of the twelve monthly codes M01..M12, yet the source's lexicographic
comparison 'M01' <= "M1" <= 'M12' holds, so its observation appears in the
fetcher's output (reconstructed as 2023-01-01). -/
theorem period_filter_counterexample :
    "M1" ∉ monthlyCodes ∧ periodInRange "M1" = true ∧
    (fetch_data (.ok respM1)).map obsKey =
      [("Unemployment Rate", 2023, 1)] := by
  exact ⟨by decide, by decide, by decide⟩

/-- C3 witness: the provenance properties evaluated at the single February
observation of a concrete successful response. -/
theorem period_filter_provenance_witness :
    _process_data respW3 = some ((_process_data respW3).getD []) ∧
    obsFebW ∈ (_process_data respW3).getD [] ∧
    ((1 ≤ obsFebW.month ∧ obsFebW.month ≤ 12) ∧ periodInRange "M13" = false ∧
      ∃ r, respW3.Results = some r ∧ ∃ ss, r.series = some ss ∧
        ∃ s ∈ ss, ∃ sid items, s.seriesID = some sid ∧ s.data = some items ∧
          ∃ it ∈ items, ∃ p, it.period = some p ∧ periodInRange p = true ∧
            parseNatChars (p.data.drop 1) = some obsFebW.month ∧
            obsFebW.seriesName = seriesNameOf sid) := by
  refine ⟨rfl, by decide, ?_⟩
  exact period_filter_provenance respW3 _ obsFebW rfl (by decide)

/-- C9 (amended): fetchData performs no deduplication — in the successful
branch the output is a permutation of the observations collected from the
response — so the returned table contains at most one observation per
(seriesName, date) pair PROVIDED the collected observations are already
pairwise distinct on that pair; a response repeating an entry yields
repeated rows (see the counterexample). -/
theorem fetch_dedup_when_source_dedup (resp : Response) (r : ResultsObj)
    (ss : List SeriesObj) (l : List Obs) (h1 : resp.Results = some r)
    (h2 : r.series = some ss) (h3 : collectAll ss = some l)
    (h4 : (l.map obsKey).Nodup) :
    ((fetch_data (.ok resp)).map obsKey).Nodup := by
  rcases @fetch_data_cases resp with h | h
  · rw [h]; simp
  · by_cases hv : monthsValid l = true
    · have hproc : _process_data resp = some (sortObsTable l) := by
        simp [_process_data, h1, h2, h3, hv]
      rw [h, hproc, Option.getD_some]
      exact (List.Perm.nodup_iff ((isort_perm rowLe l).map obsKey)).mpr h4
    · have hproc : _process_data resp = none := by
        simp [_process_data, h1, h2, h3, hv]
      rw [h, hproc]
      simp

/-- C9 witness: a duplicate-free two-month response produces a table with
pairwise-distinct (seriesName, date) keys. -/
theorem fetch_dedup_when_source_dedup_witness :
    collectAll [⟨some "LNS14000000", some [itemJan, itemFeb]⟩] =
      some ((collectAll [⟨some "LNS14000000", some [itemJan, itemFeb]⟩]).getD []) ∧
    (((collectAll [⟨some "LNS14000000", some [itemJan, itemFeb]⟩]).getD []).map
      obsKey).Nodup ∧
    ((fetch_data (.ok respTwoMonths)).map obsKey).Nodup := by
  refine ⟨rfl, by decide, ?_⟩
  exact fetch_dedup_when_source_dedup respTwoMonths
    ⟨some [⟨some "LNS14000000", some [itemJan, itemFeb]⟩]⟩
    [⟨some "LNS14000000", some [itemJan, itemFeb]⟩] _ rfl rfl rfl (by decide)

/-- C9 counterexample: the claim as stated is false.  A response repeating
the same (series, year, period) entry yields a table with two rows carrying
the same (seriesName, date) pair: fetchData deduplicates nothing. -/
theorem fetch_dedup_counterexample :
    (fetch_data (.ok respDup)).map obsKey =
      [("Unemployment Rate", 2023, 1), ("Unemployment Rate", 2023, 1)] ∧
    ¬ ((fetch_data (.ok respDup)).map obsKey).Nodup := by
  exact ⟨by decide, by decide⟩

end BLS
